import Mathlib

/-!
Verification of the client-side chat UI (`src/static/js/app.js` and its
near-duplicate `src/unnamed/part_000`).  The development shallowly embeds
the streaming response consumer of `sendMessage`, the message-append and
scroll logic of `addMessage`, the session deletion flow of `deleteChat` /
`startNewChat`, and the suggestion generator `getRandomSuggestions`.

Modelling conventions:
* `JSON.parse` (a platform builtin) is embedded as `jsonParse`, a
  recursive-descent parser for the JSON fragment these frames use
  (flat objects, strings with the common escapes, integer numbers,
  `true` / `false` / `null`).  It fails exactly where `JSON.parse`
  throws on the inputs appearing in this development; a thrown parse
  error and the resulting caught exception are both modelled by the
  parser returning `none`, after which the loop body leaves all state
  unchanged, matching the `try`/`catch` in the source.
* `marked.parse` (external markdown renderer) is a parameter
  `mp : String → String` of every stream function; theorems hold for an
  arbitrary renderer (at most assuming `mp "" = ""`, true of marked).
* DOM element content is `NodeContent`: `.html s` records
  `innerHTML = s`; `.text s` records `textContent = s` (literal text,
  never interpreted as markup).  A freshly created `div` has
  `innerHTML = ""`, i.e. `.html ""`.
* `speak(t)` and `loadChatHistory()` are fire-and-forget collaborators;
  the state records the list of texts handed to `speak` and the number
  of session-list reloads requested.
-/

set_option autoImplicit false

namespace Chat

/-- JSON values, as produced by `JSON.parse` for the frames this client
consumes: flat or nested objects, strings, integer numbers, booleans,
`null`. -/
inductive Json where
  | str (s : String)
  | num (n : Int)
  | bool (b : Bool)
  | null
  | obj (fields : List (String × Json))

/-- Skip JSON whitespace, as `JSON.parse` does between tokens. -/
def skipWs : List Char → List Char
  | [] => []
  | c :: cs => if c = ' ' ∨ c = '\t' ∨ c = '\n' ∨ c = '\r' then skipWs cs else c :: cs

/-- Translate a JSON string escape character (the part after `\`). -/
def escChar (c : Char) : Option Char :=
  if c = '"' then some '"'
  else if c = '\\' then some '\\'
  else if c = '/' then some '/'
  else if c = 'n' then some '\n'
  else if c = 't' then some '\t'
  else if c = 'r' then some '\r'
  else none

/-- Parse the body of a JSON string literal (after the opening quote),
returning the decoded string and the input after the closing quote.
Raw control characters are rejected, as in `JSON.parse`. -/
def parseStringBody : List Char → Option (String × List Char)
  | [] => none
  | c :: cs =>
    if c = '"' then some ("", cs)
    else if c = '\\' then
      match cs with
      | [] => none
      | e :: cs2 =>
        match escChar e with
        | some ch => (parseStringBody cs2).map (fun p => (⟨ch :: p.1.data⟩, p.2))
        | none => none
    else if c.toNat < 32 then none
    else (parseStringBody cs).map (fun p => (⟨c :: p.1.data⟩, p.2))

/-- Fold a run of decimal digits into a natural number. -/
def digitsToNat (acc : Nat) : List Char → Nat
  | [] => acc
  | c :: cs => digitsToNat (acc * 10 + (c.toNat - 48)) cs

mutual

/-- Parse one JSON value.  `fuel` bounds the recursion depth; callers pass
`input.length + 1`, which is always sufficient because every recursive
call first consumes at least one character. -/
def parseValue : Nat → List Char → Option (Json × List Char)
  | 0, _ => none
  | fuel + 1, cs =>
    match skipWs cs with
    | [] => none
    | c :: rest =>
      if c = '"' then (parseStringBody rest).map (fun p => (Json.str p.1, p.2))
      else if c = '\x7b' then parseFields fuel rest []
      else if c = 't' then
        match rest with
        | 'r' :: 'u' :: 'e' :: r => some (Json.bool true, r)
        | _ => none
      else if c = 'f' then
        match rest with
        | 'a' :: 'l' :: 's' :: 'e' :: r => some (Json.bool false, r)
        | _ => none
      else if c = 'n' then
        match rest with
        | 'u' :: 'l' :: 'l' :: r => some (Json.null, r)
        | _ => none
      else if c = '-' then
        match rest.span Char.isDigit with
        | ([], _) => none
        | (ds, r) => some (Json.num (-(digitsToNat 0 ds : Int)), r)
      else if c.isDigit then
        match (c :: rest).span Char.isDigit with
        | (ds, r) => some (Json.num (digitsToNat 0 ds : Int), r)
      else none

/-- Parse the fields of a JSON object (the part after `{`), accumulating
parsed fields in `acc` in reverse order. -/
def parseFields : Nat → List Char → List (String × Json) → Option (Json × List Char)
  | 0, _, _ => none
  | fuel + 1, cs, acc =>
    match skipWs cs with
    | [] => none
    | c :: rest =>
      if c = '\x7d' then
        if acc.isEmpty then some (Json.obj [], rest) else none
      else if c = '"' then
        match parseStringBody rest with
        | none => none
        | some (key, r1) =>
          match skipWs r1 with
          | ':' :: r2 =>
            match parseValue fuel r2 with
            | none => none
            | some (v, r3) =>
              match skipWs r3 with
              | ',' :: r4 => parseFields fuel r4 ((key, v) :: acc)
              | '\x7d' :: r4 => some (Json.obj (((key, v) :: acc).reverse), r4)
              | _ => none
          | _ => none
      else none

end

/-- `JSON.parse` on a character list: one value, then only whitespace may
remain (trailing garbage throws, modelled as `none`). -/
def jsonParseChars (cs : List Char) : Option Json :=
  match parseValue (cs.length + 1) cs with
  | some (v, rest) => if skipWs rest = [] then some v else none
  | none => none

/-- Last-occurrence field lookup: a duplicate key in a JSON object
literal overrides earlier ones, as in `JSON.parse`. -/
def objGet : List (String × Json) → String → Option Json
  | [], _ => none
  | (k, v) :: rest, key =>
    match objGet rest key with
    | some v' => some v'
    | none => if k = key then some v else none

/-- JavaScript property access `data.key` on a parsed JSON value:
field lookup on objects, `undefined` (here `none`) otherwise.
(`null.key` throws in JS, but inside the `try` of the stream loop that
throw is caught and leaves all state unchanged, the same outcome this
model gives.) -/
def jsGet : Json → String → Option Json
  | Json.obj fields, key => objGet fields key
  | _, _ => none

/-- JavaScript truthiness of a possibly-absent value: `undefined`,
`null`, `""`, `false` and `0` are falsy. -/
def jsTruthy : Option Json → Bool
  | none => false
  | some (Json.str s) => !(s == "")
  | some (Json.num n) => !(n == 0)
  | some (Json.bool b) => b
  | some Json.null => false
  | some (Json.obj _) => true

/-- JavaScript string coercion, as in `fullText += data.text` or
`'Error: ' + data.error`. -/
def jsToString : Json → String
  | Json.str s => s
  | Json.num n => toString n
  | Json.bool true => "true"
  | Json.bool false => "false"
  | Json.null => "null"
  | Json.obj _ => "[object Object]"

/-- Content of a DOM node: `html s` records an `innerHTML = s`
assignment, `text s` a `textContent = s` assignment (literal text,
never interpreted as markup). -/
inductive NodeContent where
  | html (s : String)
  | text (s : String)
deriving DecidableEq, Repr

/-- State of one run of the stream consumer in `sendMessage`:
the accumulator `fullText`, the content of the active bot message's
`div`, the texts handed to the speech bridge, and the number of
session-list refreshes triggered. -/
structure StreamState where
  fullText : String
  content : NodeContent
  spoken : List String
  historyReloads : Nat
deriving DecidableEq, Repr

/-- The state at the moment the bot message `div` is created:
empty accumulator, empty `div`. -/
def initStreamState : StreamState := ⟨"", NodeContent.html "", [], 0⟩

/-- The body of the per-frame dispatch in `sendMessage`
(`if (data.text) ... else if (data.done) ... else if (data.error) ...`),
for one successfully parsed frame `data`.  `mp` is `marked.parse`. -/
def stepData (mp : String → String) (s : StreamState) (data : Json) : StreamState :=
  if jsTruthy (jsGet data "text") then
    let full := s.fullText ++ jsToString ((jsGet data "text").getD Json.null)
    { s with fullText := full, content := NodeContent.html (mp full) }
  else if jsTruthy (jsGet data "done") then
    { s with spoken := s.spoken ++ [s.fullText], historyReloads := s.historyReloads + 1 }
  else if jsTruthy (jsGet data "error") then
    { s with content := NodeContent.text ("Error: " ++ jsToString ((jsGet data "error").getD Json.null)) }
  else s

/-- The prefix `'data: '` checked by `line.startsWith('data: ')`. -/
def dataPrefix : List Char := ['d', 'a', 't', 'a', ':', ' ']

/-- One iteration of `for (const line of lines)`: act only on lines with
the `data: ` prefix; a JSON parse failure is caught and drops the line. -/
def stepLine (mp : String → String) (s : StreamState) (line : List Char) : StreamState :=
  if dataPrefix.isPrefixOf line then
    match jsonParseChars (line.drop 6) with
    | some data => stepData mp s data
    | none => s
  else s

/-- `chunk.split('\n')` — JavaScript split semantics: `"" ↦ [""]`,
a trailing separator yields a trailing empty segment. -/
def splitOnNl : List Char → List (List Char)
  | [] => [[]]
  | c :: cs =>
    if c = '\n' then [] :: splitOnNl cs
    else
      match splitOnNl cs with
      | l :: ls => (c :: l) :: ls
      | [] => [[c]]

/-- Process one decoded read chunk: split on newlines, feed each line to
the dispatch, within this single chunk only. -/
def processChunk (mp : String → String) (s : StreamState) (chunk : List Char) : StreamState :=
  (splitOnNl chunk).foldl (stepLine mp) s

/-- The `while (true)` read loop over the sequence of decoded chunks the
reader delivers.  No state other than `StreamState` is carried between
reads — in particular no partial-line buffer. -/
def runChunks (mp : String → String) (s : StreamState) (chunks : List (List Char)) : StreamState :=
  chunks.foldl (processChunk mp) s

/-- Run the dispatch over a list of already-split lines. -/
def runLines (mp : String → String) (s : StreamState) (lines : List (List Char)) : StreamState :=
  lines.foldl (stepLine mp) s

/-- `StreamEvent` of the specification: the classification a parsed
frame receives from the dispatch cascade, `none` when no branch fires. -/
inductive StreamEvent where
  | text (delta : String)
  | done
  | error (msg : String)
deriving DecidableEq, Repr

/-- The event a parsed frame is classified as by the truthiness cascade. -/
def classify (data : Json) : Option StreamEvent :=
  if jsTruthy (jsGet data "text") then
    some (StreamEvent.text (jsToString ((jsGet data "text").getD Json.null)))
  else if jsTruthy (jsGet data "done") then some StreamEvent.done
  else if jsTruthy (jsGet data "error") then
    some (StreamEvent.error (jsToString ((jsGet data "error").getD Json.null)))
  else none

/-- The event (if any) a single received line gives rise to. -/
def lineEvent (line : List Char) : Option StreamEvent :=
  if dataPrefix.isPrefixOf line then
    match jsonParseChars (line.drop 6) with
    | some data => classify data
    | none => none
  else none

/-- The events emitted while processing one chunk. -/
def chunkEvents (chunk : List Char) : List StreamEvent :=
  (splitOnNl chunk).filterMap lineEvent

/-- The character list of the wire frame `data: {"<key>":"<v>"}` for a
single string-valued field. -/
def strFieldFrameLine (key v : String) : List Char :=
  "data: \x7b\"".data ++ key.data ++ "\":\"".data ++ v.data ++ "\"\x7d".data

/-- The character list of the wire frame `data: {"text":"<d>"}`. -/
def textFrameLine (d : String) : List Char :=
  "data: \x7b\"text\":\"".data ++ d.data ++ "\"\x7d".data

/-- The character list of the wire frame `data: {"done":true}`. -/
def doneFrameLine : List Char := "data: \x7b\"done\":true\x7d".data

/-- A string is escape-free when it round-trips through a JSON string
literal without escaping: no quote, no backslash, no control character. -/
def EscapeFree (d : String) : Prop :=
  ∀ c ∈ d.data, c ≠ '"' ∧ c ≠ '\\' ∧ 32 ≤ c.toNat

instance (d : String) : Decidable (EscapeFree d) := by
  unfold EscapeFree; infer_instance

/-- Concatenation of a list of deltas in arrival order. -/
def concatAll : List String → String
  | [] => ""
  | d :: ds => d ++ concatAll ds

/-- `d` contains no occurrence of the `data: ` prefix that could make the
tail of a split text frame itself look like a frame line. -/
def NoEmbeddedDataPrefix (d : String) : Prop :=
  ∀ k, ¬ dataPrefix.isPrefixOf (d.data.drop k ++ ['"', '\x7d'])

/- ### Session view-model (`startNewChat`, `deleteChat`) -/

/-- The conversation area: either the empty-state HTML (icon plus
suggestion chips) or a list of appended message `div`s. -/
inductive TranscriptView where
  | emptyState
  | messageList (msgs : List NodeContent)
deriving DecidableEq, Repr

/-- The client-side view-model touched by session deletion: the active
session id (`sessionId` module variable), the conversation area
(`chatMessages`), and the number of sidebar refreshes
(`loadChatHistory()` calls) issued. -/
structure ViewModel where
  sessionId : String
  transcript : TranscriptView
  listReloads : Nat
deriving DecidableEq, Repr

/-- `startNewChat()`: regenerate the session id from the current
timestamp (`'session_' + Date.now()`), replace the conversation area
with the empty state, and refresh the sidebar list. -/
def startNewChat (now : Nat) (vm : ViewModel) : ViewModel :=
  { sessionId := "session_" ++ toString now
    transcript := TranscriptView.emptyState
    listReloads := vm.listReloads + 1 }

/-- The state transition of `deleteChat()` once the `/history/clear`
response for session `toDelete` has arrived with success flag `ok`
(`response.ok`).  On failure only an alert is shown.  The
`currentChatToDelete` clearing and the confirmation step happen outside
this transition. -/
def deleteChat (toDelete : String) (ok : Bool) (now : Nat) (vm : ViewModel) : ViewModel :=
  if ok then
    if toDelete = vm.sessionId then startNewChat now vm
    else { vm with listReloads := vm.listReloads + 1 }
  else vm

/- ### Scroll geometry (`isNearBottom`, `addMessage`) -/

/-- The scroll geometry of the `chatMessages` element. -/
structure ScrollBox where
  scrollTop : Int
  clientHeight : Int
  scrollHeight : Int
deriving DecidableEq, Repr

/-- Assignment `chatMessages.scrollTop = v`: the DOM clamps the stored
value into `[0, scrollHeight - clientHeight]`. -/
def setScrollTop (v : Int) (b : ScrollBox) : ScrollBox :=
  { b with scrollTop := max 0 (min v (b.scrollHeight - b.clientHeight)) }

/-- `isNearBottom()` of `part_000`:
`scrollTop + clientHeight >= scrollHeight - 10`. -/
def isNearBottom (b : ScrollBox) : Bool :=
  decide (b.scrollHeight - 10 ≤ b.scrollTop + b.clientHeight)

/-- Appending rendered content of height `h` to the element grows its
`scrollHeight`. -/
def appendContent (h : Int) (b : ScrollBox) : ScrollBox :=
  { b with scrollHeight := b.scrollHeight + h }

/-- Scroll effect of `addMessage` in `app.js`: append, then
unconditionally `chatMessages.scrollTop = chatMessages.scrollHeight`. -/
def addMessageScrollAppJs (h : Int) (b : ScrollBox) : ScrollBox :=
  let b1 := appendContent h b
  setScrollTop b1.scrollHeight b1

/-- Scroll effect of `addMessage` in `part_000`: record
`wasNearBottom = isNearBottom()` before the append, append, and if it
held call `scrollToBottomIfNear()`, which re-checks `isNearBottom()`
after the append before scrolling. -/
def addMessageScrollPart000 (h : Int) (b : ScrollBox) : ScrollBox :=
  let wasNearBottom := isNearBottom b
  let b1 := appendContent h b
  if wasNearBottom then
    if isNearBottom b1 then setScrollTop b1.scrollHeight b1 else b1
  else b1

/-- Scroll effect of one streaming `Text` re-render in `app.js`: the
re-render grows the element by `h`, then unconditionally
`chatMessages.scrollTop = chatMessages.scrollHeight`. -/
def streamScrollAppJs (h : Int) (b : ScrollBox) : ScrollBox :=
  let b1 := appendContent h b
  setScrollTop b1.scrollHeight b1

/-- Scroll effect of one streaming `Text` re-render in `part_000`:
`wasNearBottom` was captured once, before the read loop started, and is
consulted unchanged at every re-render. -/
def streamScrollPart000 (wasNearBottomAtStart : Bool) (h : Int) (b : ScrollBox) : ScrollBox :=
  let b1 := appendContent h b
  if wasNearBottomAtStart then setScrollTop b1.scrollHeight b1 else b1

/- ### `addMessage` rendering (`app.js` and `part_000` agree) -/

/-- The content given to a newly appended message `div` by `addMessage`:
bot messages get `innerHTML = marked.parse(message)`, every other role
gets `textContent = message`. -/
def messageNodeContent (mp : String → String) (role msg : String) : NodeContent :=
  if role = "bot" then NodeContent.html (mp msg) else NodeContent.text msg

/- ### `sendMessage` control flow as a UI action trace -/

/-- Externally visible actions of one `sendMessage()` run. -/
inductive UiAction where
  | appendUserMessage (msg : String)
  | setControlsDisabled (b : Bool)
  | fetchStream (msg sid : String)
  | renderBotMarkdown (src : String)
  | showFrameError (msg : String)
  | speakText (t : String)
  | reloadSessionList
  | appendBotMessage (msg : String)
deriving DecidableEq, Repr

/-- The actions the truthiness dispatch performs for one successfully
parsed frame, given the current accumulator (same cascade as
`stepData`, recording effects). -/
def dataActions (fullText : String) (data : Json) : List UiAction :=
  if jsTruthy (jsGet data "text") then
    [UiAction.renderBotMarkdown (fullText ++ jsToString ((jsGet data "text").getD Json.null))]
  else if jsTruthy (jsGet data "done") then
    [UiAction.speakText fullText, UiAction.reloadSessionList]
  else if jsTruthy (jsGet data "error") then
    [UiAction.showFrameError ("Error: " ++ jsToString ((jsGet data "error").getD Json.null))]
  else []

/-- The accumulator value after one successfully parsed frame. -/
def dataNewFullText (fullText : String) (data : Json) : String :=
  if jsTruthy (jsGet data "text") then
    fullText ++ jsToString ((jsGet data "text").getD Json.null)
  else fullText

/-- The actions performed for one received line, together with the new
accumulator value (same dispatch as `stepLine`, recording effects). -/
def lineActions (fullText : String) (line : List Char) : String × List UiAction :=
  if dataPrefix.isPrefixOf line then
    match jsonParseChars (line.drop 6) with
    | some data => (dataNewFullText fullText data, dataActions fullText data)
    | none => (fullText, [])
  else (fullText, [])

/-- Actions of a list of lines, threading the accumulator. -/
def linesActions (fullText : String) : List (List Char) → String × List UiAction
  | [] => (fullText, [])
  | l :: ls =>
    let p := lineActions fullText l
    let q := linesActions p.1 ls
    (q.1, p.2 ++ q.2)

/-- Actions of the read loop over the decoded chunks. -/
def chunksActions (fullText : String) : List (List Char) → String × List UiAction
  | [] => (fullText, [])
  | c :: cs =>
    let p := linesActions fullText (splitOnNl c)
    let q := chunksActions p.1 cs
    (q.1, p.2 ++ q.2)

/-- How the `fetch('/chat/stream', ...)` resolves: a transport failure
(the promise rejects, or `!response.ok` makes `sendMessage` throw into
its own `catch`), or a successful response whose body delivers the given
decoded chunks. -/
inductive FetchOutcome where
  | transportFail
  | streamOk (chunks : List (List Char))

/-- The synthetic inline error message appended in the `catch` branch. -/
def transportErrorText : String := "❌ Error: Unable to fetch response. Please try again."

/-- `message.trim()`: strip whitespace from both ends. -/
def jsTrim (s : String) : String :=
  String.mk (((s.data.dropWhile Char.isWhitespace).reverse.dropWhile Char.isWhitespace).reverse)

/-- The UI action trace of one `sendMessage()` call: nothing on an empty
trimmed message; otherwise append the user message, disable the
controls, issue the single fetch, run the stream dispatch (or show the
synthetic error), and re-enable the controls.  Typing-indicator
insertion/removal and textarea height resets are not claim-relevant and
are not recorded. -/
def sendMessageTrace (msg sid : String) (outcome : FetchOutcome) : List UiAction :=
  if jsTrim msg = "" then []
  else
    [UiAction.appendUserMessage (jsTrim msg), UiAction.setControlsDisabled true,
      UiAction.fetchStream (jsTrim msg) sid] ++
    (match outcome with
     | FetchOutcome.transportFail => [UiAction.appendBotMessage transportErrorText]
     | FetchOutcome.streamOk chunks => (chunksActions "" chunks).2) ++
    [UiAction.setControlsDisabled false]

/-- An action the stream dispatch itself can perform (never a control
toggle, never a fetch). -/
def isStreamAction : UiAction → Bool
  | UiAction.renderBotMarkdown _ => true
  | UiAction.showFrameError _ => true
  | UiAction.speakText _ => true
  | UiAction.reloadSessionList => true
  | _ => false

/- ### Suggestion chips (`suggestionPool`, `getRandomSuggestions`) -/

/-- The fixed pool of candidate prompts. -/
def suggestionPool : List String :=
  ["Tell me a fun fact",
   "Explain quantum computing",
   "Write a short poem",
   "What\x27s the weather like today?",
   "Tell me a joke",
   "How does photosynthesis work?",
   "What are some healthy breakfast ideas?",
   "Explain the concept of recursion",
   "What\x27s the meaning of life?",
   "Tell me about space exploration",
   "How to meditate for beginners?",
   "What\x27s artificial intelligence?",
   "Give me cooking tips",
   "Explain blockchain technology",
   "What\x27s your favorite color?"]

/-- `getRandomSuggestions(count)`:
`[...suggestionPool].sort(() => 0.5 - Math.random()).slice(0, count)`.
The randomized sort is modelled by quantifying over an arbitrary
permutation `shuffled` of the pool; `slice(0, count)` is `take`. -/
def getRandomSuggestions (shuffled : List String) (count : Nat) : List String :=
  shuffled.take count

/-! ### String and parser lemmas -/

theorem string_mk_data (s : String) : String.mk s.data = s := rfl

theorem string_data_nil (s : String) (h : s ≠ "") : s.data ≠ [] := by
  intro hd
  apply h
  cases s with
  | mk l =>
    have hl : l = [] := hd
    rw [hl]

theorem string_append_ne_empty (a b : String) (h : a ≠ "") : a ++ b ≠ "" := by
  intro hab
  have hd : a.data ++ b.data = [] := by
    rw [← String.data_append, hab]
  exact string_data_nil a h (List.append_eq_nil.mp hd).1

theorem parseStringBody_nil : parseStringBody [] = none := by
  rw [parseStringBody.eq_def]

theorem parseStringBody_quote (cs : List Char) :
    parseStringBody ('"' :: cs) = some ("", cs) := by
  rw [parseStringBody.eq_def]
  rfl

theorem parseStringBody_plain (c : Char) (cs : List Char)
    (h1 : c ≠ '"') (h2 : c ≠ '\\') (h3 : 32 ≤ c.toNat) :
    parseStringBody (c :: cs) = (parseStringBody cs).map (fun p => (⟨c :: p.1.data⟩, p.2)) := by
  have hlt : ¬ c.toNat < 32 := by omega
  rw [parseStringBody.eq_def]
  simp only [if_neg h1, if_neg h2, if_neg hlt]

theorem parseStringBody_closes (l rest : List Char)
    (h : ∀ c ∈ l, c ≠ '"' ∧ c ≠ '\\' ∧ 32 ≤ c.toNat) :
    parseStringBody (l ++ '"' :: rest) = some (String.mk l, rest) := by
  induction l with
  | nil => simpa using parseStringBody_quote rest
  | cons c cs ih =>
    obtain ⟨h1, h2, h3⟩ := h c (List.mem_cons_self c cs)
    rw [List.cons_append, parseStringBody_plain c _ h1 h2 h3,
      ih (fun x hx => h x (List.mem_cons_of_mem _ hx))]
    rfl

theorem parseStringBody_unterminated (l : List Char)
    (h : ∀ c ∈ l, c ≠ '"' ∧ c ≠ '\\' ∧ 32 ≤ c.toNat) :
    parseStringBody l = none := by
  induction l with
  | nil => exact parseStringBody_nil
  | cons c cs ih =>
    obtain ⟨h1, h2, h3⟩ := h c (List.mem_cons_self c cs)
    rw [parseStringBody_plain c _ h1 h2 h3, ih (fun x hx => h x (List.mem_cons_of_mem _ hx))]
    rfl

theorem strFieldFrameLine_eq (k v : String) :
    strFieldFrameLine k v =
      'd' :: 'a' :: 't' :: 'a' :: ':' :: ' ' :: '\x7b' :: '"' ::
        (k.data ++ '"' :: ':' :: '"' :: (v.data ++ ['"', '\x7d'])) := by
  simp [strFieldFrameLine, List.append_assoc]

theorem textFrameLine_strField (d : String) : textFrameLine d = strFieldFrameLine "text" d := by
  rw [strFieldFrameLine_eq]
  rfl

theorem parseValue_strField (fuel : Nat) (k v : String)
    (hk : EscapeFree k) (hv : EscapeFree v) :
    parseValue (fuel + 3)
      ('\x7b' :: '"' :: (k.data ++ '"' :: ':' :: '"' :: (v.data ++ ['"', '\x7d']))) =
    some (Json.obj [(k, Json.str v)], []) := by
  have h1 := parseStringBody_closes k.data (':' :: '"' :: (v.data ++ ['"', '\x7d'])) hk
  have h2 := parseStringBody_closes v.data ['\x7d'] hv
  simp [parseValue, parseFields, skipWs, h1, h2, string_mk_data]

theorem jsonParseChars_strField (k v : String) (hk : EscapeFree k) (hv : EscapeFree v) :
    jsonParseChars ('\x7b' :: '"' :: (k.data ++ '"' :: ':' :: '"' :: (v.data ++ ['"', '\x7d']))) =
    some (Json.obj [(k, Json.str v)]) := by
  unfold jsonParseChars
  have hlen :
      ('\x7b' :: '"' :: (k.data ++ '"' :: ':' :: '"' :: (v.data ++ ['"', '\x7d']))).length + 1 =
        (k.data.length + v.data.length + 5) + 3 := by
    simp [List.length_append]
    omega
  rw [hlen, parseValue_strField _ k v hk hv]
  rfl

theorem stepLine_strField (mp : String → String) (s : StreamState) (k v : String)
    (hk : EscapeFree k) (hv : EscapeFree v) :
    stepLine mp s (strFieldFrameLine k v) = stepData mp s (Json.obj [(k, Json.str v)]) := by
  rw [strFieldFrameLine_eq]
  rw [show stepLine mp s
      ('d' :: 'a' :: 't' :: 'a' :: ':' :: ' ' :: '\x7b' :: '"' ::
        (k.data ++ '"' :: ':' :: '"' :: (v.data ++ ['"', '\x7d']))) =
    (match jsonParseChars
        ('\x7b' :: '"' :: (k.data ++ '"' :: ':' :: '"' :: (v.data ++ ['"', '\x7d']))) with
     | some data => stepData mp s data
     | none => s) from rfl]
  rw [jsonParseChars_strField k v hk hv]

theorem stepData_textObj (mp : String → String) (s : StreamState) (d : String) :
    stepData mp s (Json.obj [("text", Json.str d)]) =
      if d = "" then s
      else { s with
              fullText := s.fullText ++ d
              content := NodeContent.html (mp (s.fullText ++ d)) } := by
  by_cases hd : d = "" <;>
    simp [stepData, jsGet, objGet, jsTruthy, jsToString, hd]

theorem stepData_errorObj (mp : String → String) (s : StreamState) (e : String) :
    stepData mp s (Json.obj [("error", Json.str e)]) =
      if e = "" then s
      else { s with content := NodeContent.text ("Error: " ++ e) } := by
  by_cases he : e = "" <;>
    simp [stepData, jsGet, objGet, jsTruthy, jsToString, he]

theorem stepLine_doneFrame (mp : String → String) (s : StreamState) :
    stepLine mp s doneFrameLine =
      { s with
          spoken := s.spoken ++ [s.fullText]
          historyReloads := s.historyReloads + 1 } := rfl

theorem stepLine_nil (mp : String → String) (s : StreamState) : stepLine mp s [] = s := rfl

theorem stepLine_textFrame (mp : String → String) (s : StreamState) (d : String)
    (hd : EscapeFree d) :
    stepLine mp s (textFrameLine d) =
      if d = "" then s
      else { s with
              fullText := s.fullText ++ d
              content := NodeContent.html (mp (s.fullText ++ d)) } := by
  rw [textFrameLine_strField, stepLine_strField mp s "text" d (by decide) hd, stepData_textObj]

theorem stepLine_errorFrame (mp : String → String) (s : StreamState) (e : String)
    (he : EscapeFree e) :
    stepLine mp s (strFieldFrameLine "error" e) =
      if e = "" then s
      else { s with content := NodeContent.text ("Error: " ++ e) } := by
  rw [stepLine_strField mp s "error" e (by decide) he, stepData_errorObj]

/-! ### Accumulation over a run of text frames -/

theorem runLines_cons (mp : String → String) (s : StreamState) (l : List Char)
    (ls : List (List Char)) :
    runLines mp s (l :: ls) = runLines mp (stepLine mp s l) ls := rfl

theorem runLines_textFrames (mp : String → String) (s : StreamState) (deltas : List String)
    (h : ∀ d ∈ deltas, EscapeFree d) :
    runLines mp s (deltas.map textFrameLine) =
      { s with
          fullText := s.fullText ++ concatAll deltas
          content := if concatAll deltas = "" then s.content
            else NodeContent.html (mp (s.fullText ++ concatAll deltas)) } := by
  induction deltas generalizing s with
  | nil =>
    simp [runLines, concatAll, String.append_empty]
  | cons d ds ih =>
    have hd := h d (List.mem_cons_self d ds)
    have hds := fun x hx => h x (List.mem_cons_of_mem d hx)
    rw [List.map_cons, runLines_cons, stepLine_textFrame mp s d hd]
    by_cases hd0 : d = ""
    · subst hd0
      rw [if_pos rfl, ih s hds]
      simp [concatAll, String.empty_append]
    · rw [if_neg hd0, ih _ hds]
      have hne : d ++ concatAll ds ≠ "" := string_append_ne_empty d _ hd0
      by_cases hds0 : concatAll ds = ""
      · simp only [concatAll, hds0, String.append_empty, if_neg hne, if_neg hd0]
        simp
      · simp only [concatAll, hds0, if_neg hne, String.append_assoc, ite_false]

/-! ### Chunk framing: one intact frame per read -/

theorem splitOnNl_cons (c : Char) (cs : List Char) :
    splitOnNl (c :: cs) =
      if c = '\n' then [] :: splitOnNl cs
      else
        match splitOnNl cs with
        | l :: ls => (c :: l) :: ls
        | [] => [[c]] := by
  rw [splitOnNl.eq_def]

theorem splitOnNl_ne_nil (l : List Char) : splitOnNl l ≠ [] := by
  induction l with
  | nil => decide
  | cons c cs ih =>
    rw [splitOnNl_cons]
    by_cases hc : c = '\n'
    · simp [hc]
    · rw [if_neg hc]
      cases hsp : splitOnNl cs with
      | nil => simp
      | cons a as => simp

theorem splitOnNl_append_nl (l : List Char) (h : '\n' ∉ l) :
    splitOnNl (l ++ ['\n']) = [l, []] := by
  induction l with
  | nil => rfl
  | cons c cs ih =>
    have hc : c ≠ '\n' := fun hc => h (hc ▸ List.mem_cons_self c cs)
    have hcs : '\n' ∉ cs := fun hm => h (List.mem_cons_of_mem c hm)
    rw [List.cons_append, splitOnNl_cons, if_neg hc, ih hcs]

theorem processChunk_line_nl (mp : String → String) (s : StreamState) (l : List Char)
    (h : '\n' ∉ l) :
    processChunk mp s (l ++ ['\n']) = stepLine mp s l := by
  rw [processChunk, splitOnNl_append_nl l h]
  rfl

theorem no_nl_strFieldFrameLine (k v : String) (hk : EscapeFree k) (hv : EscapeFree v) :
    '\n' ∉ strFieldFrameLine k v := by
  rw [strFieldFrameLine_eq]
  intro hm
  have h10 : ('\n').toNat = 10 := rfl
  simp only [List.mem_cons, List.mem_append, List.not_mem_nil, or_false] at hm
  rcases hm with h|h|h|h|h|h|h|h|h|h|h|h|h|h|h <;>
    first
      | exact absurd h (by decide)
      | (obtain ⟨-, -, h32⟩ := hk _ h
         omega)
      | (obtain ⟨-, -, h32⟩ := hv _ h
         omega)

theorem no_nl_textFrameLine (d : String) (hd : EscapeFree d) : '\n' ∉ textFrameLine d := by
  rw [textFrameLine_strField]
  exact no_nl_strFieldFrameLine "text" d (by decide) hd

theorem runChunks_framePerRead (mp : String → String) (s : StreamState)
    (lines : List (List Char)) (h : ∀ l ∈ lines, '\n' ∉ l) :
    runChunks mp s (lines.map (· ++ ['\n'])) = runLines mp s lines := by
  induction lines generalizing s with
  | nil => rfl
  | cons l ls ih =>
    rw [List.map_cons, runChunks, List.foldl_cons,
      processChunk_line_nl mp s l (h l (List.mem_cons_self l ls))]
    exact ih _ (fun x hx => h x (List.mem_cons_of_mem l hx))

theorem runLines_append (mp : String → String) (s : StreamState) (l1 l2 : List (List Char)) :
    runLines mp s (l1 ++ l2) = runLines mp (runLines mp s l1) l2 :=
  List.foldl_append _ _ _ _

theorem runLines_singleton (mp : String → String) (s : StreamState) (l : List Char) :
    runLines mp s [l] = stepLine mp s l := rfl

/-! ### Claim theorems -/

/-- C1: for every run of the stream consumer that receives a sequence of
`Text` frames followed by a `Done` frame (each frame delivered as one
intact `data: <json>\n` read), the final rendered content of the active
bot message is `marked.parse` applied to the concatenation of all `Text`
deltas in arrival order, and the text handed to the speech bridge on
`Done` is that same concatenation. -/
theorem c1_stream_renders_concatenation (mp : String → String) (deltas : List String)
    (hmp : mp "" = "") (hesc : ∀ d ∈ deltas, EscapeFree d) :
    runChunks mp initStreamState
      ((deltas.map textFrameLine ++ [doneFrameLine]).map (· ++ ['\n'])) =
      { fullText := concatAll deltas
        content := NodeContent.html (mp (concatAll deltas))
        spoken := [concatAll deltas]
        historyReloads := 1 } := by
  have hnl : ∀ l ∈ deltas.map textFrameLine ++ [doneFrameLine], '\n' ∉ l := by
    intro l hl
    rcases List.mem_append.mp hl with h | h
    · obtain ⟨d, hd, rfl⟩ := List.mem_map.mp h
      exact no_nl_textFrameLine d (hesc d hd)
    · rw [List.mem_singleton.mp h]
      decide
  rw [runChunks_framePerRead mp _ _ hnl, runLines_append,
    runLines_textFrames mp _ deltas hesc, runLines_singleton, stepLine_doneFrame]
  by_cases h0 : concatAll deltas = ""
  · simp [initStreamState, h0, hmp, String.empty_append]
  · simp [initStreamState, if_neg h0, String.empty_append]

/-- Witness for C1: deltas `["Hi", " there"]` with the identity renderer
produce the message `"Hi there"`, spoken once, one sidebar refresh. -/
theorem c1_stream_renders_concatenation_witness :
    runChunks id initStreamState
      ((["Hi", " there"].map textFrameLine ++ [doneFrameLine]).map (· ++ ['\n'])) =
      { fullText := "Hi there"
        content := NodeContent.html "Hi there"
        spoken := ["Hi there"]
        historyReloads := 1 } :=
  (c1_stream_renders_concatenation id ["Hi", " there"] rfl (by decide)).trans (by decide)

/-- C2 counterexample: in the run `[Error "boom", Text "hi"]` the
accumulator grows from `""` to `"hi"` after the error and the bot
message is re-rendered (the error display is overwritten), so an
`Error` frame is not a terminal state. -/
theorem c2_error_terminal_counterexample :
    (runLines id initStreamState [strFieldFrameLine "error" "boom"]).content
      = NodeContent.text "Error: boom" ∧
    (runLines id initStreamState [strFieldFrameLine "error" "boom"]).fullText = "" ∧
    (runLines id initStreamState
        [strFieldFrameLine "error" "boom", strFieldFrameLine "text" "hi"]).fullText = "hi" ∧
    (runLines id initStreamState
        [strFieldFrameLine "error" "boom", strFieldFrameLine "text" "hi"]).content
      = NodeContent.html "hi" := by
  decide

/-- C2 (amended): an `Error` frame replaces the bot message content with
the error display and leaves the accumulator unchanged, but it is not
terminal: a subsequent `Text` frame of the same request is still
processed — the accumulator grows and the message is re-rendered,
overwriting the error display. -/
theorem c2_error_frame_not_terminal (mp : String → String) (s : StreamState) (e t : String)
    (he : EscapeFree e) (ht : EscapeFree t) (he0 : e ≠ "") (ht0 : t ≠ "") :
    runLines mp s [strFieldFrameLine "error" e] =
      { s with content := NodeContent.text ("Error: " ++ e) } ∧
    runLines mp s [strFieldFrameLine "error" e, strFieldFrameLine "text" t] =
      { s with
          fullText := s.fullText ++ t
          content := NodeContent.html (mp (s.fullText ++ t)) } := by
  have h1 : stepLine mp s (strFieldFrameLine "error" e) =
      { s with content := NodeContent.text ("Error: " ++ e) } := by
    rw [stepLine_errorFrame mp s e he, if_neg he0]
  refine ⟨h1, ?_⟩
  rw [runLines_cons, h1, runLines_singleton, ← textFrameLine_strField t,
    stepLine_textFrame mp _ t ht, if_neg ht0]

/-- Witness for the amended C2 at `Error "boom"` then `Text "hi"`. -/
theorem c2_error_frame_not_terminal_witness :
    runLines id initStreamState [strFieldFrameLine "error" "boom"] =
      { initStreamState with content := NodeContent.text "Error: boom" } ∧
    runLines id initStreamState
        [strFieldFrameLine "error" "boom", strFieldFrameLine "text" "hi"] =
      { initStreamState with
          fullText := initStreamState.fullText ++ "hi"
          content := NodeContent.html (id (initStreamState.fullText ++ "hi")) } :=
  c2_error_frame_not_terminal id initStreamState "boom" "hi" (by decide) (by decide)
    (by decide) (by decide)

/-- C7: a received line that carries the `data: ` prefix but whose
remainder fails to parse as JSON is dropped with no change to the
stream state, and consumption of the subsequent lines of the same
stream continues unaffected. -/
theorem c7_malformed_frame_dropped (mp : String → String) (s : StreamState) (line : List Char)
    (rest : List (List Char)) (hpre : dataPrefix.isPrefixOf line = true)
    (hparse : jsonParseChars (line.drop 6) = none) :
    stepLine mp s line = s ∧ runLines mp s (line :: rest) = runLines mp s rest := by
  have h1 : stepLine mp s line = s := by
    simp [stepLine, hpre, hparse]
  exact ⟨h1, by rw [runLines_cons, h1]⟩

/-- Witness for C7: the malformed line `data: oops` is dropped and the
following `Text` frame is still consumed. -/
theorem c7_malformed_frame_dropped_witness :
    stepLine id initStreamState "data: oops".data = initStreamState ∧
    runLines id initStreamState ["data: oops".data, textFrameLine "hi"] =
      runLines id initStreamState [textFrameLine "hi"] :=
  c7_malformed_frame_dropped id initStreamState "data: oops".data [textFrameLine "hi"] rfl rfl

/-- C10: the frame discriminant is checked by truthiness, not field
presence — the frames `{"text":""}`, `{"done":false}` and `{"error":""}`
all parse successfully, yet the consumer takes no action at all on any
of them: accumulator, rendered content, speech list and session-list
refresh count are all unchanged. -/
theorem c10_falsy_fields_no_action (mp : String → String) (s : StreamState) :
    jsonParseChars "\x7b\"text\":\"\"\x7d".data = some (Json.obj [("text", Json.str "")]) ∧
    jsonParseChars "\x7b\"done\":false\x7d".data = some (Json.obj [("done", Json.bool false)]) ∧
    jsonParseChars "\x7b\"error\":\"\"\x7d".data = some (Json.obj [("error", Json.str "")]) ∧
    stepLine mp s "data: \x7b\"text\":\"\"\x7d".data = s ∧
    stepLine mp s "data: \x7b\"done\":false\x7d".data = s ∧
    stepLine mp s "data: \x7b\"error\":\"\"\x7d".data = s :=
  ⟨rfl, rfl, rfl, rfl, rfl, rfl⟩


/-! ### C3: chunk splitting and frames split across reads -/

theorem splitOnNl_no_nl (l : List Char) (h : '\n' ∉ l) : splitOnNl l = [l] := by
  induction l with
  | nil => rfl
  | cons c cs ih =>
    have hc : c ≠ '\n' := fun hc => h (hc ▸ List.mem_cons_self c cs)
    have hcs : '\n' ∉ cs := fun hm => h (List.mem_cons_of_mem c hm)
    rw [splitOnNl_cons, if_neg hc, ih hcs]

theorem processChunk_no_nl (mp : String → String) (s : StreamState) (l : List Char)
    (h : '\n' ∉ l) : processChunk mp s l = stepLine mp s l := by
  rw [processChunk, splitOnNl_no_nl l h]
  rfl

theorem stepLine_notPrefix (mp : String → String) (s : StreamState) (l : List Char)
    (h : ¬ dataPrefix.isPrefixOf l = true) : stepLine mp s l = s := by
  simp [stepLine, h]

theorem runChunks_flatMap (mp : String → String) (s : StreamState)
    (chunks : List (List Char)) :
    runChunks mp s chunks = runLines mp s (chunks.flatMap splitOnNl) := by
  induction chunks generalizing s with
  | nil => rfl
  | cons c cs ih =>
    rw [runChunks, List.foldl_cons, List.flatMap_cons, runLines_append]
    exact ih _

theorem parseValue_strField_badValue (fuel : Nat) (k : String) (X : List Char)
    (hk : EscapeFree k) (hX : parseStringBody X = none) :
    parseValue (fuel + 3) ('\x7b' :: '"' :: (k.data ++ '"' :: ':' :: '"' :: X)) = none := by
  have h1 := parseStringBody_closes k.data (':' :: '"' :: X) hk
  simp [parseValue, parseFields, skipWs, h1, hX]

theorem jsonParseChars_strField_badValue (k : String) (X : List Char)
    (hk : EscapeFree k) (hX : parseStringBody X = none) :
    jsonParseChars ('\x7b' :: '"' :: (k.data ++ '"' :: ':' :: '"' :: X)) = none := by
  unfold jsonParseChars
  have hlen : ('\x7b' :: '"' :: (k.data ++ '"' :: ':' :: '"' :: X)).length + 1
      = (k.data.length + X.length + 3) + 3 := by
    simp [List.length_append]
    omega
  rw [hlen, parseValue_strField_badValue _ k X hk hX]

theorem parseValue_strField_truncated (fuel : Nat) (k v : String)
    (hk : EscapeFree k) (hv : EscapeFree v) :
    parseValue (fuel + 3)
      ('\x7b' :: '"' :: (k.data ++ '"' :: ':' :: '"' :: (v.data ++ ['"']))) = none := by
  have h1 := parseStringBody_closes k.data (':' :: '"' :: (v.data ++ ['"'])) hk
  have h2 := parseStringBody_closes v.data [] hv
  simp [parseValue, parseFields, skipWs, h1, h2]

theorem jsonParseChars_strField_truncated (k v : String)
    (hk : EscapeFree k) (hv : EscapeFree v) :
    jsonParseChars ('\x7b' :: '"' :: (k.data ++ '"' :: ':' :: '"' :: (v.data ++ ['"']))) = none := by
  unfold jsonParseChars
  have hlen : ('\x7b' :: '"' :: (k.data ++ '"' :: ':' :: '"' :: (v.data ++ ['"']))).length + 1
      = (k.data.length + v.data.length + 4) + 3 := by
    simp [List.length_append]
    omega
  rw [hlen, parseValue_strField_truncated _ k v hk hv]

theorem stepLine_textOpen (mp : String → String) (s : StreamState) (X : List Char)
    (hX : parseStringBody X = none) :
    stepLine mp s
      ('d' :: 'a' :: 't' :: 'a' :: ':' :: ' ' :: '\x7b' :: '"' :: 't' :: 'e' :: 'x' :: 't' ::
        '"' :: ':' :: '"' :: X) = s := by
  rw [show stepLine mp s
      ('d' :: 'a' :: 't' :: 'a' :: ':' :: ' ' :: '\x7b' :: '"' :: 't' :: 'e' :: 'x' :: 't' ::
        '"' :: ':' :: '"' :: X) =
    (match jsonParseChars
        ('\x7b' :: '"' :: ("text".data ++ '"' :: ':' :: '"' :: X)) with
     | some data => stepData mp s data
     | none => s) from rfl]
  rw [jsonParseChars_strField_badValue "text" X (by decide) hX]

theorem stepLine_textTruncated (mp : String → String) (s : StreamState) (d : String)
    (hd : EscapeFree d) :
    stepLine mp s
      ('d' :: 'a' :: 't' :: 'a' :: ':' :: ' ' :: '\x7b' :: '"' :: 't' :: 'e' :: 'x' :: 't' ::
        '"' :: ':' :: '"' :: (d.data ++ ['"'])) = s := by
  rw [show stepLine mp s
      ('d' :: 'a' :: 't' :: 'a' :: ':' :: ' ' :: '\x7b' :: '"' :: 't' :: 'e' :: 'x' :: 't' ::
        '"' :: ':' :: '"' :: (d.data ++ ['"'])) =
    (match jsonParseChars
        ('\x7b' :: '"' :: ("text".data ++ '"' :: ':' :: '"' :: (d.data ++ ['"']))) with
     | some data => stepData mp s data
     | none => s) from rfl]
  rw [jsonParseChars_strField_truncated "text" d (by decide) hd]

theorem textFrameLine_append_form (d : String) :
    textFrameLine d =
      ['d', 'a', 't', 'a', ':', ' ', '\x7b', '"', 't', 'e', 'x', 't', '"', ':', '"'] ++
        (d.data ++ ['"', '\x7d']) := rfl

theorem textFrameLine_length (d : String) :
    (textFrameLine d).length = d.data.length + 17 := by
  rw [textFrameLine_append_form]
  simp [List.length_append]

theorem stepLine_take_textFrame (mp : String → String) (s : StreamState) (d : String)
    (i : Nat) (hd : EscapeFree d) (h1 : 1 ≤ i) (h2 : i < (textFrameLine d).length) :
    stepLine mp s ((textFrameLine d).take i) = s := by
  rw [textFrameLine_length] at h2
  rcases Nat.lt_or_ge i 15 with hi | hi
  · rw [textFrameLine_append_form]
    interval_cases i <;> rfl
  · obtain ⟨k, rfl⟩ : ∃ k, i = 15 + k := ⟨i - 15, by omega⟩
    rw [textFrameLine_append_form,
      show (15 : Nat) + k =
        (['d', 'a', 't', 'a', ':', ' ', '\x7b', '"', 't', 'e', 'x', 't', '"', ':', '"'] :
          List Char).length + k from rfl,
      List.take_append]
    by_cases hk : k ≤ d.data.length
    · rw [List.take_append_of_le_length hk]
      have hX : parseStringBody (d.data.take k) = none :=
        parseStringBody_unterminated _
          (fun c hc => hd c ((List.take_sublist k d.data).subset hc))
      exact stepLine_textOpen mp s _ hX
    · have hk1 : k = d.data.length + 1 := by omega
      subst hk1
      rw [show d.data.length + 1 = d.data.length + 1 from rfl, List.take_append]
      exact stepLine_textTruncated mp s d hd

theorem stepLine_drop_textFrame (mp : String → String) (s : StreamState) (d : String)
    (i : Nat) (hnd : NoEmbeddedDataPrefix d)
    (h1 : 1 ≤ i) (h2 : i < (textFrameLine d).length) :
    stepLine mp s ((textFrameLine d).drop i) = s := by
  rw [textFrameLine_length] at h2
  rcases Nat.lt_or_ge i 15 with hi | hi
  · rw [textFrameLine_append_form]
    interval_cases i <;> rfl
  · obtain ⟨k, rfl⟩ : ∃ k, i = 15 + k := ⟨i - 15, by omega⟩
    rw [textFrameLine_append_form,
      show (15 : Nat) + k =
        (['d', 'a', 't', 'a', ':', ' ', '\x7b', '"', 't', 'e', 'x', 't', '"', ':', '"'] :
          List Char).length + k from rfl,
      List.drop_append]
    by_cases hk : k ≤ d.data.length
    · rw [List.drop_append_of_le_length hk]
      exact stepLine_notPrefix mp s _ (hnd k)
    · have hk1 : k = d.data.length + 1 := by omega
      subst hk1
      rw [show d.data.length + 1 = d.data.length + 1 from rfl, List.drop_append]
      rfl


theorem noEmbeddedDataPrefix_of_no_d (d : String) (h : 'd' ∉ d.data) :
    NoEmbeddedDataPrefix d := by
  intro k hpre
  cases hl : d.data.drop k ++ ['"', '\x7d'] with
  | nil =>
    rw [hl] at hpre
    exact absurd hpre (by decide)
  | cons c cs =>
    rw [hl] at hpre
    have hc : ('d' == c) = true := by
      by_contra hne
      rw [show dataPrefix.isPrefixOf (c :: cs) =
          (('d' == c) && List.isPrefixOf ['a', 't', 'a', ':', ' '] cs) from rfl] at hpre
      rw [Bool.not_eq_true] at hne
      rw [hne] at hpre
      simp at hpre
    have hcd : c = 'd' := (beq_iff_eq.mp hc).symm
    subst hcd
    have hmem : 'd' ∈ d.data.drop k ++ ['"', '\x7d'] := by
      rw [hl]
      exact List.mem_cons_self _ cs
    rcases List.mem_append.mp hmem with hm | hm
    · exact h ((List.drop_sublist k d.data).subset hm)
    · exact absurd hm (by decide)

/-- C3: the stream parser splits each decoded read chunk on newlines and
acts only on `data: `-prefixed lines within that single chunk, carrying
no buffer across reads (the run over a chunk sequence equals the run
over the per-chunk line lists); consequently a frame whose line is split
strictly inside across two reads is silently lost — neither half is
acted on — for every split point of a text frame with escape-free delta
(not itself embedding the `data: ` prefix), and for every split point of
the concrete `done` and `error` frames; the same frame delivered intact
in one read is processed. -/
theorem c3_no_buffer_split_frame_lost (mp : String → String) (s : StreamState)
    (d : String) (chunks : List (List Char)) (i : Nat)
    (hd : EscapeFree d) (hnd : NoEmbeddedDataPrefix d)
    (h1 : 1 ≤ i) (h2 : i < (textFrameLine d).length) :
    runChunks mp s chunks = runLines mp s (chunks.flatMap splitOnNl) ∧
    (d ≠ "" →
      processChunk mp s (textFrameLine d ++ ['\n']) =
        { s with
            fullText := s.fullText ++ d
            content := NodeContent.html (mp (s.fullText ++ d)) }) ∧
    runChunks mp s [(textFrameLine d).take i, (textFrameLine d).drop i ++ ['\n']] = s ∧
    (∀ j, 1 ≤ j → j < doneFrameLine.length →
      runChunks mp s [doneFrameLine.take j, doneFrameLine.drop j ++ ['\n']] = s) ∧
    (∀ j, 1 ≤ j → j < (strFieldFrameLine "error" "boom").length →
      runChunks mp s [(strFieldFrameLine "error" "boom").take j,
        (strFieldFrameLine "error" "boom").drop j ++ ['\n']] = s) := by
  refine ⟨runChunks_flatMap mp s chunks, ?_, ?_, ?_, ?_⟩
  · intro hd0
    rw [processChunk_line_nl mp s _ (no_nl_textFrameLine d hd),
      stepLine_textFrame mp s d hd, if_neg hd0]
  · have hnl : '\n' ∉ textFrameLine d := no_nl_textFrameLine d hd
    have hnlt : '\n' ∉ (textFrameLine d).take i :=
      fun hm => hnl ((List.take_sublist i _).subset hm)
    have hnld : '\n' ∉ (textFrameLine d).drop i :=
      fun hm => hnl ((List.drop_sublist i _).subset hm)
    have e1 : processChunk mp s ((textFrameLine d).take i) = s := by
      rw [processChunk_no_nl mp s _ hnlt]
      exact stepLine_take_textFrame mp s d i hd h1 h2
    have e2 : processChunk mp s ((textFrameLine d).drop i ++ ['\n']) = s := by
      rw [processChunk_line_nl mp s _ hnld]
      exact stepLine_drop_textFrame mp s d i hnd h1 h2
    show processChunk mp (processChunk mp s ((textFrameLine d).take i))
        ((textFrameLine d).drop i ++ ['\n']) = s
    rw [e1, e2]
  · intro j hj1 hj2
    have hlen : doneFrameLine.length = 19 := rfl
    rw [hlen] at hj2
    interval_cases j <;> rfl
  · intro j hj1 hj2
    have hlen : (strFieldFrameLine "error" "boom").length = 22 := rfl
    rw [hlen] at hj2
    interval_cases j <;> rfl

/-- Witness for C3: the frame `data: {"text":"hi"}` split after ten
characters is lost entirely — processing both halves leaves the state
untouched. -/
theorem c3_no_buffer_split_frame_lost_witness :
    runChunks id initStreamState
      [(textFrameLine "hi").take 10, (textFrameLine "hi").drop 10 ++ ['\n']] =
      initStreamState :=
  (c3_no_buffer_split_frame_lost id initStreamState "hi" [] 10 (by decide)
    (noEmbeddedDataPrefix_of_no_d "hi" (by decide)) (by decide) (by decide)).2.2.1


/-- C4: for every successful delete request, deleting the active session
replaces the active id with the freshly generated
`'session_' + Date.now()` id and resets the transcript to the empty
state (with a sidebar refresh); deleting a non-active session leaves the
active id and transcript unchanged and only refreshes the session
list. -/
theorem c4_delete_active_vs_other (vm : ViewModel) (toDelete : String) (now : Nat) :
    (toDelete = vm.sessionId →
      deleteChat toDelete true now vm =
        { sessionId := "session_" ++ toString now
          transcript := TranscriptView.emptyState
          listReloads := vm.listReloads + 1 }) ∧
    (toDelete ≠ vm.sessionId →
      (deleteChat toDelete true now vm).sessionId = vm.sessionId ∧
      (deleteChat toDelete true now vm).transcript = vm.transcript ∧
      (deleteChat toDelete true now vm).listReloads = vm.listReloads + 1) := by
  constructor
  · intro h
    simp [deleteChat, h, startNewChat]
  · intro h
    simp [deleteChat, h]

/-- Witness for C4: deleting the active session `session_5` at timestamp
7 yields a fresh `session_7` view-model; deleting `other` keeps the
active id. -/
theorem c4_delete_active_vs_other_witness :
    deleteChat "session_5" true 7 ⟨"session_5", TranscriptView.emptyState, 0⟩ =
      { sessionId := "session_7"
        transcript := TranscriptView.emptyState
        listReloads := 1 } ∧
    (deleteChat "other" true 7
        ⟨"session_5", TranscriptView.emptyState, 0⟩).sessionId = "session_5" :=
  ⟨((c4_delete_active_vs_other ⟨"session_5", TranscriptView.emptyState, 0⟩
      "session_5" 7).1 rfl).trans (by decide),
    ((c4_delete_active_vs_other ⟨"session_5", TranscriptView.emptyState, 0⟩
      "other" 7).2 (by decide)).1⟩

/-- C5 counterexample: in `app.js`, with the viewport scrolled away from
the bottom (`scrollTop = 0`, `clientHeight = 100`,
`scrollHeight = 1000`, so `isNearBottom` is false), appending a message
of height 50 moves `scrollTop` to 950 — the append auto-scrolls even
though the viewport was not near the bottom, contradicting the claimed
"if and only if". -/
theorem c5_scroll_iff_counterexample :
    isNearBottom ⟨0, 100, 1000⟩ = false ∧
    addMessageScrollAppJs 50 ⟨0, 100, 1000⟩ = ⟨950, 100, 1050⟩ := by
  decide

/-- C5 (amended): `app.js`'s `addMessage` (and its streaming re-render)
always scrolls to the bottom after the append, regardless of the prior
position; `part_000`'s `addMessage` does not move the scroll position
when the viewport was away from the bottom, and scrolls to the bottom
when the viewport was within the threshold both before and after the
append; `part_000`'s streaming re-render consults only the position
captured once at stream start — if that flag is set it scrolls even
when the viewport is currently away, and if clear it never scrolls. -/
theorem c5_scroll_policies (b : ScrollBox) (h : Int) (hc : 0 ≤ b.clientHeight) :
    (addMessageScrollAppJs h b).scrollTop
        = max 0 (b.scrollHeight + h - b.clientHeight) ∧
    (streamScrollAppJs h b).scrollTop
        = max 0 (b.scrollHeight + h - b.clientHeight) ∧
    (isNearBottom b = false → addMessageScrollPart000 h b = appendContent h b) ∧
    (isNearBottom b = true → isNearBottom (appendContent h b) = true →
      (addMessageScrollPart000 h b).scrollTop
        = max 0 (b.scrollHeight + h - b.clientHeight)) ∧
    streamScrollPart000 false h b = appendContent h b ∧
    (streamScrollPart000 true h b).scrollTop
        = max 0 (b.scrollHeight + h - b.clientHeight) := by
  refine ⟨?_, ?_, ?_, ?_, ?_, ?_⟩
  · simp only [addMessageScrollAppJs, setScrollTop, appendContent]
    omega
  · simp only [streamScrollAppJs, setScrollTop, appendContent]
    omega
  · intro hfar
    simp [addMessageScrollPart000, hfar]
  · intro hnear hnear2
    simp only [addMessageScrollPart000, appendContent] at hnear2 ⊢
    simp only [hnear, hnear2, if_true, setScrollTop]
    omega
  · simp [streamScrollPart000]
  · simp only [streamScrollPart000, setScrollTop, appendContent, if_true]
    omega

/-- Witness for the amended C5 at the scrolled-away geometry
`⟨0, 100, 1000⟩` with append height 50. -/
theorem c5_scroll_policies_witness :
    (addMessageScrollAppJs 50 ⟨0, 100, 1000⟩).scrollTop = 950 ∧
    addMessageScrollPart000 50 ⟨0, 100, 1000⟩ = appendContent 50 ⟨0, 100, 1000⟩ ∧
    (streamScrollPart000 true 50 ⟨0, 100, 1000⟩).scrollTop = 950 := by
  have h := c5_scroll_policies ⟨0, 100, 1000⟩ 50 (by decide)
  exact ⟨h.1.trans (by decide), h.2.2.1 (by decide), h.2.2.2.2.2.trans (by decide)⟩

/-- C8: `addMessage` gives a `user` message literal `textContent` (never
interpreted as markup) and a `bot` message `innerHTML` of the parsed
markdown; any role other than `bot` — in particular every string
supplied as user input — is rendered literally. -/
theorem c8_user_literal_bot_markdown (mp : String → String) (msg : String) :
    messageNodeContent mp "user" msg = NodeContent.text msg ∧
    messageNodeContent mp "bot" msg = NodeContent.html (mp msg) ∧
    ∀ role, role ≠ "bot" → messageNodeContent mp role msg = NodeContent.text msg := by
  refine ⟨rfl, rfl, ?_⟩
  intro role hr
  simp [messageNodeContent, hr]

/-- Witness for C8: a markup-looking user input is rendered literally. -/
theorem c8_user_literal_bot_markdown_witness :
    messageNodeContent id "user" "<b># hi</b>" = NodeContent.text "<b># hi</b>" :=
  (c8_user_literal_bot_markdown id "<b># hi</b>").2.2 "user" (by decide)

/-- C9: for every `n` up to the pool size, `getRandomSuggestions n`
returns exactly `n` pairwise-distinct entries, each drawn from the fixed
suggestion pool, regardless of the permutation the randomized shuffle
produces. -/
theorem c9_random_suggestions (shuffled : List String) (n : Nat)
    (hperm : shuffled.Perm suggestionPool) (hn : n ≤ suggestionPool.length) :
    (getRandomSuggestions shuffled n).length = n ∧
    (getRandomSuggestions shuffled n).Nodup ∧
    ∀ x ∈ getRandomSuggestions shuffled n, x ∈ suggestionPool := by
  have hnodup : suggestionPool.Nodup := by decide
  have hlen : shuffled.length = suggestionPool.length := hperm.length_eq
  refine ⟨?_, ?_, ?_⟩
  · rw [getRandomSuggestions, List.length_take, hlen]
    omega
  · exact List.Nodup.sublist (List.take_sublist n shuffled) (hperm.symm.nodup hnodup)
  · intro x hx
    exact hperm.mem_iff.mp ((List.take_sublist n shuffled).subset hx)

/-- Witness for C9 at the identity shuffle and `n = 3`. -/
theorem c9_random_suggestions_witness :
    (getRandomSuggestions suggestionPool 3).length = 3 ∧
    (getRandomSuggestions suggestionPool 3).Nodup ∧
    ∀ x ∈ getRandomSuggestions suggestionPool 3, x ∈ suggestionPool :=
  c9_random_suggestions suggestionPool 3 (List.Perm.refl _) (by decide)


/-! ### C6: control flow of one send -/

theorem isStreamAction_not_control (a : UiAction) (h : isStreamAction a = true) :
    (∀ b, a ≠ UiAction.setControlsDisabled b) ∧
    (∀ m2 s2, a ≠ UiAction.fetchStream m2 s2) := by
  cases a <;> simp_all [isStreamAction]

theorem dataActions_stream (ft : String) (data : Json) :
    ∀ a ∈ dataActions ft data, isStreamAction a = true := by
  intro a ha
  unfold dataActions at ha
  by_cases h1 : jsTruthy (jsGet data "text") = true
  · rw [if_pos h1] at ha
    simp at ha
    subst ha
    rfl
  · rw [if_neg h1] at ha
    by_cases h2 : jsTruthy (jsGet data "done") = true
    · rw [if_pos h2] at ha
      simp at ha
      rcases ha with rfl | rfl <;> rfl
    · rw [if_neg h2] at ha
      by_cases h3 : jsTruthy (jsGet data "error") = true
      · rw [if_pos h3] at ha
        simp at ha
        subst ha
        rfl
      · rw [if_neg h3] at ha
        simp at ha

theorem lineActions_stream (ft : String) (l : List Char) :
    ∀ a ∈ (lineActions ft l).2, isStreamAction a = true := by
  intro a ha
  unfold lineActions at ha
  split at ha
  · split at ha
    · exact dataActions_stream ft _ a ha
    · simp at ha
  · simp at ha

theorem linesActions_stream (ft : String) (ls : List (List Char)) :
    ∀ a ∈ (linesActions ft ls).2, isStreamAction a = true := by
  induction ls generalizing ft with
  | nil =>
    intro a ha
    simp [linesActions] at ha
  | cons l ls ih =>
    intro a ha
    simp only [linesActions] at ha
    rcases List.mem_append.mp ha with hm | hm
    · exact lineActions_stream ft l a hm
    · exact ih _ a hm

theorem chunksActions_stream (ft : String) (chunks : List (List Char)) :
    ∀ a ∈ (chunksActions ft chunks).2, isStreamAction a = true := by
  induction chunks generalizing ft with
  | nil =>
    intro a ha
    simp [chunksActions] at ha
  | cons c cs ih =>
    intro a ha
    simp only [chunksActions] at ha
    rcases List.mem_append.mp ha with hm | hm
    · exact linesActions_stream _ _ a hm
    · exact ih _ a hm

/-- C6: for every send of a message that is non-empty after trimming,
the trace of `sendMessage` appends the user message, disables the input
box and send button, issues the single fetch, and re-enables the
controls as its final action in every terminal state (stream completion
— with or without error frames — and transport failure); no control
toggle and no further fetch occurs in between (so the controls stay
disabled for the whole in-flight window and there is no automatic
retry); a transport failure contributes exactly one synthetic inline
bot error message. -/
theorem c6_send_controls_and_terminal_states (msg sid : String) (outcome : FetchOutcome)
    (hm : jsTrim msg ≠ "") :
    ∃ mid : List UiAction,
      sendMessageTrace msg sid outcome =
        [UiAction.appendUserMessage (jsTrim msg), UiAction.setControlsDisabled true,
          UiAction.fetchStream (jsTrim msg) sid] ++ mid ++
          [UiAction.setControlsDisabled false] ∧
      (∀ a ∈ mid, (∀ b, a ≠ UiAction.setControlsDisabled b) ∧
        ∀ m2 s2, a ≠ UiAction.fetchStream m2 s2) ∧
      (outcome = FetchOutcome.transportFail →
        mid = [UiAction.appendBotMessage transportErrorText]) ∧
      (∀ chunks, outcome = FetchOutcome.streamOk chunks →
        mid = (chunksActions "" chunks).2) := by
  cases outcome with
  | transportFail =>
    refine ⟨[UiAction.appendBotMessage transportErrorText], ?_, ?_, fun _ => rfl, ?_⟩
    · rw [sendMessageTrace, if_neg hm]
    · intro a ha
      simp at ha
      subst ha
      exact ⟨fun b => by simp, fun m2 s2 => by simp⟩
    · intro chunks hc
      cases hc
  | streamOk chunks =>
    refine ⟨(chunksActions "" chunks).2, ?_, ?_, ?_, ?_⟩
    · rw [sendMessageTrace, if_neg hm]
    · intro a ha
      exact isStreamAction_not_control a (chunksActions_stream "" chunks a ha)
    · intro hc
      cases hc
    · intro chunks2 hc
      cases hc
      rfl

/-- Witness for C6: sending `"Hello"` with a single-chunk stream
`data: {"text":"hi"}\n` yields the full expected trace, controls
re-enabled last. -/
theorem c6_send_controls_and_terminal_states_witness :
    sendMessageTrace "Hello" "session_1"
        (FetchOutcome.streamOk [textFrameLine "hi" ++ ['\n']]) =
      [UiAction.appendUserMessage "Hello", UiAction.setControlsDisabled true,
        UiAction.fetchStream "Hello" "session_1", UiAction.renderBotMarkdown "hi",
        UiAction.setControlsDisabled false] := by
  obtain ⟨mid, he, -, -, hs⟩ :=
    c6_send_controls_and_terminal_states "Hello" "session_1"
      (FetchOutcome.streamOk [textFrameLine "hi" ++ ['\n']]) (by decide)
  rw [he, hs [textFrameLine "hi" ++ ['\n']] rfl]
  decide

end Chat
